import Mathlib

/-! The `User` record and the query script of `main` in go_orm.go.

A shallow embedding of `src/go_orm.go`: the record type `User`, the statements
that `main` issues against the database handle, and the control flow of `main`
(panic on a failed connect, every later result dropped).
-/

namespace GoOrm

/-! ## Data model -/

/-- A Go `error` value, reduced to its message. -/
abbrev Error := String

deriving instance DecidableEq for Except

/-- The Go types of the fields of `User`. -/
inductive GoType where
  | uint
  | string
  | int
  | bool
deriving DecidableEq, Repr

/-- One line of a struct declaration: field name, Go type and the `gorm:"..."` tag. -/
structure Field where
  name : String
  type : GoType
  tag : String
deriving DecidableEq, Repr

/-- The declaration `type User struct` (go_orm.go:10-17), field by field. -/
def UserFields : List Field :=
  [ ⟨"ID", .uint, "primaryKey"⟩,
    ⟨"Name", .string, "size:100"⟩,
    ⟨"Email", .string, "unique"⟩,
    ⟨"Age", .int, ""⟩,
    ⟨"IsAdmin", .bool, "default:false"⟩,
    ⟨"IsActive", .bool, "default:true"⟩ ]

/-- A value of `type User struct`; `uint` is a natural number, `int` an integer.
The defaults are Go's zero values. -/
structure User where
  ID : Nat := 0
  Name : String := ""
  Email : String := ""
  Age : Int := 0
  IsAdmin : Bool := false
  IsActive : Bool := false
deriving DecidableEq, Repr

/-- Snake case on a list of characters: an upper-case letter is written in lower
case, after an underscore when the character before it was a lower-case letter or
a digit. -/
def snakeChars : Bool → List Char → List Char
  | _, [] => []
  | afterLower, c :: cs =>
    if c.isUpper then
      (if afterLower then ['_', c.toLower] else [c.toLower]) ++ snakeChars false cs
    else
      c :: snakeChars (c.isLower || c.isDigit) cs

/-- Modelled from the spec: the storage name of a field. The naming function is
library code outside `src/`; the record definition of §3 pairs each field name
with a storage name, and the script addresses the fields by their snake_case
names (`is_admin`, `is_active`, ...). -/
def toDBName (name : String) : String :=
  String.mk (snakeChars false name.toList)

/-- Storage names of the fields of `User`, in declaration order. -/
def userColumns : List String :=
  UserFields.map (fun f => toDBName f.name)

/-- The table that holds `User` records; the script names it in `users.id` and
`FROM users`. -/
def usersTable : String := "users"

/-- Whether a list of names has a repeated entry. -/
def hasDuplicate : List String → Bool
  | [] => false
  | x :: xs => xs.contains x || hasDuplicate xs

/-- Modelled from the spec: `describe(definition) -> ColumnSet` of §4.1, which
validates that no storage name occurs twice and fails with `SchemaError`
otherwise. It has no counterpart in `src/`. -/
def describe (fields : List Field) : Except Error (List String) :=
  let cols := fields.map (fun f => toDBName f.name)
  if hasDuplicate cols then .error "SchemaError" else .ok cols

/-! ## The statements of the script -/

/-- A Go value bound to a placeholder or passed as an inline condition:
a string, an integer, a boolean or a `[]string`. -/
inductive Lit where
  | str (s : String)
  | int (n : Int)
  | bool (b : Bool)
  | strs (xs : List String)
deriving DecidableEq, Repr

/-- A query over `User` that is built but not run and is passed as an argument,
as `subquery := db.Model(&User{}).Select("id").Where("is_admin = ?", true)`
(go_orm.go:79). -/
structure SubQuery where
  select : String
  cond : String
  args : List Lit
deriving DecidableEq, Repr

/-- An argument of `Where`, `Having` or `Raw`: a literal or a subquery. -/
inductive Arg where
  | lit (l : Lit)
  | sub (q : SubQuery)
deriving DecidableEq, Repr

/-- The chained calls that build a statement before it is run. `Model` is
`Model(&User{})`. -/
inductive Clause where
  | Model
  | Where (text : String) (args : List Arg)
  | Not (column : String) (value : Lit)
  | Order (column : String)
  | Select (text : String)
  | Group (column : String)
  | Having (text : String) (args : List Arg)
  | Joins (text : String)
  | Raw (text : String) (args : List Arg)
deriving DecidableEq, Repr

/-- The destination a result is read into: `users` is a `[]User`
(`&users`, `&usersWithProfiles`), `scalar` a single `float64` (`&avgAge`),
`structs` a slice of an anonymous struct with the given field names
(`&userCounts`, `&userData`). -/
inductive Dest where
  | users
  | scalar
  | structs (fields : List String)
deriving DecidableEq, Repr

/-- The call that runs a statement. `First` carries the current content of the
destination `&user`, which the library reads as well as writes. -/
inductive Finisher where
  | AutoMigrate
  | First (dest : User) (conds : List Lit)
  | Find (dest : Dest)
  | Count
  | Scan (dest : Dest)
  | Update (column : String) (value : Lit)
  | Delete (conds : List Lit)
  | Create (value : User)
deriving DecidableEq, Repr

/-- One statement of the script: the number of its step in the comments of
`main` (0 for the schema migration), the chained clauses and the finisher. -/
structure Stmt where
  step : Nat
  clauses : List Clause
  fin : Finisher
deriving DecidableEq, Repr

/-! ## The database handle and `main` -/

/-- What a finished call leaves behind: the `Error` field of the returned handle
and, for `First`, the record loaded into the destination. -/
structure Reply where
  Error : Option Error := none
  row : Option User := none
deriving DecidableEq, Repr

/-- The handle `*gorm.DB` over a database whose state has type `σ`: running a
statement, and the three transaction primitives of §6. -/
structure DB (σ : Type) where
  exec : Stmt → σ → σ × Reply
  Begin : σ → σ
  Commit : σ → σ
  Rollback : σ → σ

/-- How a run of `main` ends. -/
inductive Outcome where
  | returned
  | panicked (msg : String)
deriving DecidableEq, Repr

/-- The statement of go_orm.go:94, `tx.Create(&User{Name: "John", Email: "john@example.com"})`. -/
def createJohn : Stmt :=
  ⟨18, [], .Create { Name := "John", Email := "john@example.com" }⟩

/-- The function literal passed to `db.Transaction` (go_orm.go:93-98). -/
def callback {σ : Type} (tx : DB σ) (s : σ) : σ × Option Error :=
  let (s, r) := tx.exec createJohn s
  match r.Error with
  | some err => (s, some err)
  | none => (s, none)

/-- Modelled from the spec: `db.Transaction` is library code outside `src/`.
It is `runInTransaction(fn)` of §4.4: a transactional handle is acquired, `fn`
runs on it, an error that `fn` returns triggers rollback and is passed on, a
normal return triggers commit. -/
def Transaction {σ : Type} (db : DB σ) (fc : DB σ → σ → σ × Option Error) (s : σ) :
    σ × Option Error :=
  let (s, err) := fc db (db.Begin s)
  match err with
  | some e => (db.Rollback s, some e)
  | none => (db.Commit s, none)

/-- Steps 1 to 4 of `main` (go_orm.go:31-43), with the variable `user` they share:
`First` writes the record it loads into `user` and leaves it alone otherwise. -/
def firstFour {σ : Type} (db : DB σ) (s : σ) : σ × User :=
  let user : User := {}
  let (s, r) := db.exec ⟨1, [], .First user []⟩ s
  let user := r.row.getD user
  let (s, _) := db.exec ⟨2, [], .Find .users⟩ s
  let (s, _) := db.exec ⟨3, [.Where "name = ?" [.lit (.str "John")]], .Find .users⟩ s
  let (s, r) := db.exec ⟨4, [], .First user [.int 1]⟩ s
  let user := r.row.getD user
  (s, user)

/-- The subquery of step 14 (go_orm.go:79). -/
def subquery : SubQuery :=
  ⟨"id", "is_admin = ?", [.bool true]⟩

/-- The field names of `userCounts` (go_orm.go:72-75). -/
def userCounts : Dest := .structs ["Role", "Count"]

/-- The field names of `userData` (go_orm.go:101-104). -/
def userData : Dest := .structs ["Name", "Email"]

/-- The function `main` (go_orm.go:21-110). `opened` is what `gorm.Open` returns:
an error or the handle. The result of every call on the handle is dropped, as in
the source, where each call is an expression statement. -/
def main {σ : Type} (opened : Except Error (DB σ)) (s : σ) : Outcome × σ :=
  match opened with
  | .error _ => (.panicked "failed to connect database", s)
  | .ok db =>
    let (s, _) := db.exec ⟨0, [], .AutoMigrate⟩ s
    let (s, _) := firstFour db s
    let (s, _) := db.exec ⟨5, [.Not "is_admin" (.bool true)], .Find .users⟩ s
    let (s, _) := db.exec ⟨6, [.Model], .Count⟩ s
    let (s, _) := db.exec ⟨7, [.Order "name"], .Find .users⟩ s
    let (s, _) := db.exec ⟨8, [.Model, .Select "AVG(age)"], .Scan .scalar⟩ s
    let (s, _) := db.exec ⟨9, [.Where "name LIKE ?" [.lit (.str "J%")],
      .Where "is_active = ?" [.lit (.bool true)]], .Find .users⟩ s
    let (s, _) := db.exec ⟨10, [.Where "is_active = ? OR is_admin = ?"
      [.lit (.bool true), .lit (.bool true)]], .Find .users⟩ s
    let (s, _) := db.exec ⟨11, [.Model, .Where "id = ?" [.lit (.int 1)]],
      .Update "email" (.str "newemail@example.com")⟩ s
    let (s, _) := db.exec ⟨12, [], .Delete [.int 1]⟩ s
    let (s, _) := db.exec ⟨13, [.Model, .Select "role, COUNT(*) as count", .Group "role"],
      .Scan userCounts⟩ s
    let (s, _) := db.exec ⟨14, [.Where "id IN (?)" [.sub subquery]], .Find .users⟩ s
    let (s, _) := db.exec ⟨15, [.Joins "JOIN profiles ON profiles.user_id = users.id",
      .Where "profiles.age >= ?" [.lit (.int 18)]], .Find .users⟩ s
    let (s, _) := db.exec ⟨16, [.Model, .Select "role, COUNT(*) as user_count", .Group "role",
      .Having "user_count > ?" [.lit (.int 5)]], .Scan userCounts⟩ s
    let (s, _) := db.exec ⟨17, [.Raw "SELECT * FROM users WHERE age > ?" [.lit (.int 18)]],
      .Scan .users⟩ s
    let (s, _) := Transaction db callback s
    let (s, _) := db.exec ⟨19, [.Model, .Select "name, email"], .Scan userData⟩ s
    let (s, _) := db.exec ⟨20, [.Where "name IN ?" [.lit (.strs ["John", "Jane"])]],
      .Find .users⟩ s
    let (s, _) := db.exec ⟨20, [.Where "email LIKE ?" [.lit (.str "%example%")]],
      .Find .users⟩ s
    (.returned, s)

/-! ## A recording handle -/

/-- What a recording handle writes down. -/
inductive Event where
  | stmt (q : Stmt)
  | begin
  | commit
  | rollback
deriving DecidableEq, Repr

/-- A handle that records every statement and transaction primitive it is asked
for, and reports for each statement the error `errs` gives it. -/
def recording (errs : Stmt → Option Error) : DB (List Event) where
  exec := fun q log => (log ++ [.stmt q], { Error := errs q })
  Begin := fun log => log ++ [.begin]
  Commit := fun log => log ++ [.commit]
  Rollback := fun log => log ++ [.rollback]

/-- The statements among the recorded events. -/
def statements : List Event → List Stmt
  | [] => []
  | .stmt q :: es => q :: statements es
  | _ :: es => statements es

/-- The statements `main` issues, in order, read off a run on a recording handle
on which nothing fails. -/
def script : List Stmt :=
  statements (main (.ok (recording (fun _ => none))) []).2

/-! ## Reading the condition texts -/

/-- Characters of a name in a condition text; the dot joins a table to a column. -/
def isNameChar (c : Char) : Bool :=
  c.isAlphanum || c == '_' || c == '.'

/-- Puts a finished word, if there is one, in front of the tokens that follow. -/
def flush (cur : List Char) (rest : List String) : List String :=
  if cur.isEmpty then rest else String.mk cur :: rest

/-- Cuts a text into its names and its `?` placeholders; every other character
(blank, comma, bracket, operator, `*`) only separates. -/
def tokenize : List Char → List Char → List String
  | cur, [] => flush cur []
  | cur, c :: cs =>
    if isNameChar c then tokenize (cur ++ [c]) cs
    else if c == '?' then flush cur ("?" :: tokenize [] cs)
    else flush cur (tokenize [] cs)

/-- The tokens of a text. -/
def tokens (text : String) : List String :=
  tokenize [] text.toList

/-- The number of `?` placeholders of a text. -/
def placeholders (text : String) : Nat :=
  (text.toList.filter (fun c => c == '?')).length

/-- The words of the query language that occur in the texts of the script. -/
def sqlWords : List String :=
  ["SELECT", "FROM", "WHERE", "ON", "OR", "AND", "LIKE", "IN", "COUNT", "AVG"]

/-- What a token of a condition text is. -/
inductive Tok where
  | hole
  | word
  | named
  | column (name : String)
deriving DecidableEq, Repr

/-- The rest of `cs` after `pre`, when `cs` starts with `pre`. -/
def dropStart : List Char → List Char → Option (List Char)
  | [], cs => some cs
  | _ :: _, [] => none
  | p :: ps, c :: cs => if p = c then dropStart ps cs else none

/-- A column of the table of `User` written with the table in front (`users.id`)
is that column (`id`); any other name is left as it is. -/
def unqualify (name : String) : String :=
  match dropStart (usersTable ++ ".").toList name.toList with
  | some cs => String.mk cs
  | none => name

/-- Classifies tokens from left to right. The name after `FROM` or `JOIN` is a
table and the name after `as` is an alias being introduced: both are `named`,
not columns. The flag says that the next name is such a name. -/
def classify : Bool → List String → List Tok
  | _, [] => []
  | naming, t :: ts =>
    if t = "?" then .hole :: classify naming ts
    else if naming then .named :: classify false ts
    else if t = "FROM" ∨ t = "JOIN" ∨ t = "as" ∨ t = "AS" then .word :: classify true ts
    else if t ∈ sqlWords then .word :: classify false ts
    else .column (unqualify t) :: classify false ts

/-- The columns among classified tokens. -/
def columnsOf : List Tok → List String
  | [] => []
  | .column c :: ts => c :: columnsOf ts
  | _ :: ts => columnsOf ts

/-- The columns a text refers to, in order of occurrence. -/
def columnRefs (text : String) : List String :=
  columnsOf (classify false (tokens text))

/-- For each placeholder from left to right, the column named last before it. -/
def holesOf : Option String → List Tok → List (Option String)
  | _, [] => []
  | last, .hole :: ts => last :: holesOf last ts
  | _, .column c :: ts => holesOf (some c) ts
  | last, _ :: ts => holesOf last ts

/-- The column each placeholder of a text is compared with. -/
def holeColumns (text : String) : List (Option String) :=
  holesOf none (classify false (tokens text))

/-- A parameterised condition: its text and the arguments bound to it. -/
structure Cond where
  text : String
  args : List Arg
deriving DecidableEq, Repr

/-- The parameterised condition of a subquery passed as an argument. -/
def argConds : Arg → List Cond
  | .lit _ => []
  | .sub q => [⟨q.cond, q.args.map .lit⟩]

/-- The parameterised conditions of a clause, those of a subquery argument first
(it is built first, go_orm.go:79-80). -/
def clauseConds : Clause → List Cond
  | .Where text args => args.flatMap argConds ++ [⟨text, args⟩]
  | .Having text args => args.flatMap argConds ++ [⟨text, args⟩]
  | .Raw text args => args.flatMap argConds ++ [⟨text, args⟩]
  | _ => []

/-- The parameterised conditions of a statement. -/
def conds (q : Stmt) : List Cond :=
  q.clauses.flatMap clauseConds

/-- The columns a subquery argument refers to. -/
def argRefs : Arg → List String
  | .lit _ => []
  | .sub q => columnRefs q.select ++ columnRefs q.cond

/-- The columns a clause refers to. -/
def clauseRefs : Clause → List String
  | .Model => []
  | .Where text args => columnRefs text ++ args.flatMap argRefs
  | .Not column _ => columnRefs column
  | .Order column => columnRefs column
  | .Select text => columnRefs text
  | .Group column => columnRefs column
  | .Having text args => columnRefs text ++ args.flatMap argRefs
  | .Joins text => columnRefs text
  | .Raw text args => columnRefs text ++ args.flatMap argRefs

/-- The column a finisher names: only `Update` names one. -/
def finisherRefs : Finisher → List String
  | .Update column _ => columnRefs column
  | _ => []

/-- Every column a statement refers to in a filter, ordering, grouping, having,
projection, join or update. -/
def stmtRefs (q : Stmt) : List String :=
  q.clauses.flatMap clauseRefs ++ finisherRefs q.fin

/-- The column references of the whole script, step by step. -/
def refsByStep : List (Nat × List String) :=
  script.map (fun q => (q.step, stmtRefs q))

/-- The column references of the script that are not storage names of `User`,
each with its step. -/
def foreignRefs : List (Nat × String) :=
  script.flatMap (fun q =>
    ((stmtRefs q).filter (fun c => !userColumns.contains c)).map (fun c => (q.step, c)))

/-! ## Kinds of columns and arguments -/

/-- What a value is compared as. -/
inductive Kind where
  | text
  | number
  | boolean
deriving DecidableEq, Repr

/-- The kind of a Go type of `User`. -/
def GoType.kind : GoType → Kind
  | .uint => .number
  | .int => .number
  | .string => .text
  | .bool => .boolean

/-- The kind of a column that `User` declares, by its storage name. -/
def columnKind (column : String) : Option Kind :=
  (UserFields.find? (fun f => toDBName f.name == column)).map (fun f => f.type.kind)

/-- The kind of a literal; a `[]string` is compared element by element. -/
def Lit.kind : Lit → Kind
  | .str _ => .text
  | .int _ => .number
  | .bool _ => .boolean
  | .strs _ => .text

/-- The kind of an argument; a subquery has the kind of the column it selects. -/
def Arg.kind : Arg → Option Kind
  | .lit l => some l.kind
  | .sub q => columnKind q.select

/-- Whether an argument is one for the column its placeholder is compared with:
the placeholder follows a column, and when `User` declares that column the
argument has the column's kind. A column that `User` does not declare has no
declared kind to compare with. -/
def fits : Option String × Arg → Bool
  | (none, _) => false
  | (some c, a) =>
    match columnKind c with
    | some k => a.kind == some k
    | none => true

/-- Placeholders and arguments of a condition paired by position. -/
def bindings (c : Cond) : List (Option String × Arg) :=
  (holeColumns c.text).zip c.args

/-- The check of one condition: as many arguments as placeholders, as many
placeholders found by the tokens as by counting `?`, and every pair fits. -/
def aligned (c : Cond) : Bool :=
  placeholders c.text == c.args.length
    && (holeColumns c.text).length == c.args.length
    && (bindings c).all fits

/-- Every parameterised condition of the script with its step and its
placeholders paired with the arguments. -/
def bindingsByStep : List (Nat × String × List (Option String × Arg)) :=
  script.flatMap (fun q => (conds q).map (fun c => (q.step, c.text, bindings c)))

/-! ## Projections -/

/-- Cuts a list of characters at every `sep`. -/
def cutAt : Char → List Char → List Char → List (List Char)
  | _, cur, [] => [cur]
  | sep, cur, c :: cs =>
    if c = sep then cur :: cutAt sep [] cs else cutAt sep (cur ++ [c]) cs

/-- The name under which a selected expression arrives: its alias when it has one
(`COUNT(*) as count`), the column itself when it is a plain column, the whole
expression otherwise (`AVG(age)`). -/
def outputName (item : List Char) : String :=
  match classify false (tokenize [] item) with
  | [.column c] => c
  | ts =>
    if ts.getLast? = some .named then (tokenize [] item).getLast?.getD "" else
    String.mk item

/-- The select list written in a clause: the text of `Select`, or in `Raw` what
stands between `SELECT` and `FROM`. -/
def clauseSelect : Clause → Option (List Char)
  | .Select text => some text.toList
  | .Raw text _ =>
    let ws := (cutAt ' ' [] text.toList).dropWhile (fun w => w != "SELECT".toList)
    some (((ws.drop 1).takeWhile (fun w => w != "FROM".toList)).flatten)
  | _ => none

/-- One entry of a select list: `*`, or an expression with the name under which
it arrives. -/
inductive Item where
  | star
  | named (name : String)
deriving DecidableEq, Repr

/-- Reads one entry of a select list. -/
def item (cs : List Char) : Item :=
  if cs.filter (fun c => c != ' ') = ['*'] then .star else .named (outputName cs)

/-- The select list of a statement, entry by entry; `none` when the statement
has no select list. -/
def selectList (q : Stmt) : Option (List Item) :=
  (q.clauses.findSome? clauseSelect).map (fun cs => (cutAt ',' [] cs).map item)

/-- The name that follows `FROM` among the tokens of a text. -/
def afterFrom : List String → Option String
  | [] => none
  | t :: ts => if t = "FROM" then ts.head? else afterFrom ts

/-- The table a clause names: `Raw` names the one after `FROM`. -/
def clauseTable : Clause → Option String
  | .Raw text _ => some ((afterFrom (tokens text)).getD "")
  | _ => none

/-- The table a statement reads: the one its raw text names, and the table of
`User` for a statement built on `Model(&User{})`. -/
def sourceTable (q : Stmt) : String :=
  (q.clauses.findSome? clauseTable).getD usersTable

/-- The columns of the tables of a database, by table name; `none` for a table
the database does not have. -/
abbrev Schema := String → Option (List String)

/-- The columns one entry of a select list yields: `*` the columns of the table
read, whatever they are, and `none` when the database does not have that table;
any other entry one column under its name. -/
def Item.columns (columns : Option (List String)) : Item → Option (List String)
  | .star => columns
  | .named name => some [name]

/-- The columns a select list yields, entry after entry. -/
def expand (columns : Option (List String)) : List Item → Option (List String)
  | [] => some []
  | i :: rest =>
    (i.columns columns).bind (fun cs => (expand columns rest).map (fun more => cs ++ more))

/-- The names of the columns a statement selects on a database with the given
schema; `none` when the statement has no select list. -/
def projection (schema : Schema) (q : Stmt) : Option (List String) :=
  (selectList q).bind (fun items => expand (schema (sourceTable q)) items)

/-- Modelled from the spec: the schema that `applySchema(ColumnSet)` of §6
(`AutoMigrate`, library code outside `src/`) leaves on an empty database: the one
table of `User` with the storage names of its fields as columns. -/
def migrated : Schema :=
  fun table => if table = usersTable then some userColumns else none

/-- A database whose table of users has the column `role` beside those of `User`,
as steps 13 and 16 assume. -/
def withRole : Schema :=
  fun table => if table = usersTable then some (userColumns ++ ["role"]) else none

/-- The number of values one row of a destination takes. -/
def Dest.width : Dest → Nat
  | .users => UserFields.length
  | .scalar => 1
  | .structs fields => fields.length

/-- The names under which a destination takes columns: the storage names of its
fields; a scalar takes its one column whatever its name. -/
def Dest.names : Dest → Option (List String)
  | .users => some userColumns
  | .scalar => none
  | .structs fields => some (fields.map toDBName)

/-- Step, number of selected columns and number of destination fields of every
`Scan` of the script, on a database with the given schema. -/
def scanShapes (schema : Schema) : List (Nat × Option Nat × Nat) :=
  script.filterMap (fun q =>
    match q.fin with
    | .Scan d => some (q.step, (projection schema q).map List.length, d.width)
    | _ => none)

/-- The statement of step 17 (go_orm.go:90). -/
def rawScan : Stmt :=
  ⟨17, [.Raw "SELECT * FROM users WHERE age > ?" [.lit (.int 18)]], .Scan .users⟩

/-- The names a select list gives to its entries; `*` gives none of its own. -/
def selectedNames : List Item → List String
  | [] => []
  | .star :: rest => selectedNames rest
  | .named name :: rest => name :: selectedNames rest

/-- The selected names of a statement that no field of the destination takes. -/
def unmatched (q : Stmt) (d : Dest) : List String :=
  match selectList q, d.names with
  | some items, some names => (selectedNames items).filter (fun c => !names.contains c)
  | _, _ => []

/-- Step and unmatched names of every `Scan` of the script into a slice of an
anonymous struct. -/
def scanUnmatched : List (Nat × List String) :=
  script.filterMap (fun q =>
    match q.fin with
    | .Scan (.structs fields) => some (q.step, unmatched q (.structs fields))
    | _ => none)

/-- What the select list of a `Scan` of the script looks like, read without a
schema: the scan of step 17 reads `*` of the table of users into users, every
other scan has no `*` and as many entries as its destination has fields. -/
def scanCheck (q : Stmt) : Bool :=
  match q.fin with
  | .Scan d =>
    [8, 13, 16, 17, 19].contains q.step
      && (if q.step = 17 then
            d == .users && selectList q == some [.star] && sourceTable q == usersTable
          else
            match selectList q with
            | some items => items.all (fun i => i != .star) && items.length == d.width
            | none => false)
  | _ => true

/-! ## A table of users behind the handle -/

/-- The rows of the table `users`. -/
abbrev Table := List User

/-- A database with one table: its rows, and inside a transaction the rows as
they were when it began. -/
structure Sqlite where
  rows : Table
  saved : Option Table := none
deriving DecidableEq, Repr

/-- The row with the least primary key, the earliest one among equals:
`ORDER BY id LIMIT 1`. -/
def leastKey : Table → Option User
  | [] => none
  | u :: us =>
    match leastKey us with
    | none => some u
    | some v => if u.ID ≤ v.ID then some u else some v

/-- Whether a row passes the condition a destination adds to `First`. With
`destKey` set, a destination that already holds a record with a non-zero primary
key restricts the query to that key; a zero key restricts nothing. -/
def destAllows (destKey : Bool) (dest u : User) : Bool :=
  !destKey || dest.ID == 0 || u.ID == dest.ID

/-- The reply of `First` given the rows that pass its conditions. -/
def firstOf (found : Table) : Reply :=
  match leastKey found with
  | some u => { row := some u }
  | none => { Error := some "record not found" }

/-- Modelled from the spec: `First` is library code outside `src/`. It reads a
record back by primary key (§8): without a condition it takes the row with the
least key, with the inline condition `k` the row whose key is `k`, and reports
`record not found` when there is none. `destKey` chooses between two readings of
a destination that is not empty: `false` ignores it, as the spec's read by
primary key does; `true` adds its non-zero key to the conditions, which is what
the library documents. Other inline conditions are outside the model. -/
def First (destKey : Bool) (rows : Table) (dest : User) (conds : List Lit) : Reply :=
  match conds with
  | [] => firstOf (rows.filter (fun u => destAllows destKey dest u))
  | [.int k] => firstOf (rows.filter (fun u => (u.ID : Int) == k && destAllows destKey dest u))
  | _ => { Error := some "condition outside the model" }

/-- The key a new row gets: one more than the greatest key in the table. -/
def nextID (rows : Table) : Nat :=
  (rows.map (fun u => u.ID)).foldr max 0 + 1

/-- Modelled from the spec: `Create` is library code outside `src/`. It writes a
record (§8) under the constraints the tags of `User` declare: `Email` is
`unique`, `ID` is the primary key and is assigned when it is zero, and
`IsActive` has `default:true`, so that its zero value `false` is stored as
`true`. A violated constraint leaves the rows as they were. -/
def Create (rows : Table) (u : User) : Table × Option Error :=
  if rows.any (fun r => r.Email == u.Email) then
    (rows, some "UNIQUE constraint failed: users.email")
  else if u.ID != 0 && rows.any (fun r => r.ID == u.ID) then
    (rows, some "UNIQUE constraint failed: users.id")
  else
    (rows ++ [{ u with ID := if u.ID == 0 then nextID rows else u.ID, IsActive := true }], none)

/-- The handle over a table. `First` without clauses and `Create` are the
functions above; `Begin` saves the rows, `Rollback` restores them and `Commit`
keeps the current ones. What the remaining statements do is the parameter
`rest`, except that a read (`First`, `Find`, `Count`, `Scan`) never changes the
rows: only its error is taken from `rest`. -/
def sqlite (destKey : Bool) (rest : Stmt → Table → Table × Option Error) : DB Sqlite where
  exec := fun q st =>
    match q.fin with
    | .First dest conds =>
      if q.clauses.isEmpty then (st, First destKey st.rows dest conds)
      else (st, { Error := (rest q st.rows).2 })
    | .Create u =>
      let (rows, e) := Create st.rows u
      ({ st with rows := rows }, { Error := e })
    | .Find _ => (st, { Error := (rest q st.rows).2 })
    | .Count => (st, { Error := (rest q st.rows).2 })
    | .Scan _ => (st, { Error := (rest q st.rows).2 })
    | _ =>
      let (rows, e) := rest q st.rows
      ({ st with rows := rows }, { Error := e })
  Begin := fun st => { st with saved := some st.rows }
  Commit := fun st => { st with saved := none }
  Rollback := fun st => { rows := st.saved.getD st.rows, saved := none }

/-- The record that step 18 stores when the create succeeds. -/
def john (rows : Table) : User :=
  { ID := nextID rows, Name := "John", Email := "john@example.com", IsActive := true }

/-! ## Theorems -/

/-- The row `leastKey` returns is a row of the table. -/
theorem leastKey_mem {rows : Table} {u : User} (h : leastKey rows = some u) : u ∈ rows := by
  induction rows generalizing u with
  | nil => simp [leastKey] at h
  | cons r rs ih =>
    unfold leastKey at h
    cases hrs : leastKey rs with
    | none =>
      rw [hrs] at h
      simp only [Option.some.injEq] at h
      simp [h]
    | some v =>
      rw [hrs] at h
      simp only at h
      split at h
      · simp only [Option.some.injEq] at h
        simp [h]
      · simp only [Option.some.injEq] at h
        subst h
        exact List.mem_cons_of_mem _ (ih hrs)

/-- No row of the table has a smaller key than the row `leastKey` returns. -/
theorem leastKey_le {rows : Table} {u : User} (h : leastKey rows = some u) :
    ∀ v ∈ rows, u.ID ≤ v.ID := by
  induction rows generalizing u with
  | nil => simp
  | cons r rs ih =>
    unfold leastKey at h
    cases hrs : leastKey rs with
    | none =>
      rw [hrs] at h
      simp only [Option.some.injEq] at h
      subst h
      have hnil : rs = [] := by
        cases rs with
        | nil => rfl
        | cons a as =>
          unfold leastKey at hrs
          cases has : leastKey as with
          | none => rw [has] at hrs; simp at hrs
          | some w => rw [has] at hrs; simp only at hrs; split at hrs <;> simp at hrs
      intro v hv
      simp [hnil] at hv
      simp [hv]
    | some w =>
      rw [hrs] at h
      simp only at h
      have hw := ih hrs
      intro v hv
      rcases List.mem_cons.mp hv with hv | hv
      · subst hv
        split at h
        · simp only [Option.some.injEq] at h
          simp [h]
        · simp only [Option.some.injEq] at h
          subst h
          omega
      · split at h
        · simp only [Option.some.injEq] at h
          subst h
          have := hw v hv
          omega
        · simp only [Option.some.injEq] at h
          subst h
          exact hw v hv

/-- A table with a row has a row of least key. -/
theorem leastKey_of_mem {rows : Table} {u : User} (h : u ∈ rows) :
    ∃ m, leastKey rows = some m := by
  cases rows with
  | nil => simp at h
  | cons r rs =>
    unfold leastKey
    cases leastKey rs with
    | none => exact ⟨r, rfl⟩
    | some v =>
      simp only
      split
      · exact ⟨r, rfl⟩
      · exact ⟨v, rfl⟩

/-- A select list without `*` yields one column for each entry, on every table. -/
theorem expand_length_of_named (columns : Option (List String)) (items : List Item)
    (h : ∀ i ∈ items, i ≠ Item.star) :
    (expand columns items).map List.length = some items.length := by
  induction items with
  | nil => rfl
  | cons i rest ih =>
    have hrest : ∀ j ∈ rest, j ≠ Item.star := fun j hj => h j (List.mem_cons_of_mem _ hj)
    have ih := ih hrest
    cases i with
    | star => exact absurd rfl (h Item.star (List.mem_cons_self _ _))
    | named name =>
      cases hx : expand columns rest with
      | none => rw [hx] at ih; simp at ih
      | some more =>
        rw [hx] at ih
        simp only [Option.map_some', Option.some.injEq] at ih
        simp only [expand, Item.columns, hx, Option.some_bind, Option.map_some',
          List.length_append, List.length_cons, List.length_nil, ih]
        congr 1
        omega

/-- A select list that is `*` alone yields the columns of the table read. -/
theorem expand_star (columns : Option (List String)) :
    expand columns [Item.star] = columns := by
  cases columns with
  | none => rfl
  | some cs => simp [expand, Item.columns]

/-- C6: the six fields of `User` map to six pairwise distinct storage names
(`id, name, email, age, is_admin, is_active`), so describing the definition
yields the column set and not a duplicate-name schema error. -/
theorem user_storage_names_distinct :
    userColumns = ["id", "name", "email", "age", "is_admin", "is_active"]
      ∧ userColumns.Nodup
      ∧ describe UserFields = .ok ["id", "name", "email", "age", "is_admin", "is_active"] := by
  decide

/-- C2: a failed connect is fatal. When `gorm.Open` returns an error, `main`
panics with "failed to connect database" and the database is left exactly as it
was, so that no statement at all is recorded; when `gorm.Open` returns a handle,
`main` does not end in that panic. -/
theorem connect_failure_is_fatal :
    (∀ (σ : Type) (e : Error) (s : σ),
        main (.error e : Except Error (DB σ)) s = (.panicked "failed to connect database", s))
      ∧ (∀ e : Error, (main (.error e : Except Error (DB (List Event))) []).2 = [])
      ∧ (∀ (σ : Type) (db : DB σ) (s : σ),
          (main (.ok db) s).1 ≠ .panicked "failed to connect database") := by
  refine ⟨fun _ _ _ => rfl, fun _ => rfl, fun σ db s => ?_⟩
  have h : (main (.ok db) s).1 = .returned := rfl
  rw [h]
  decide

/-- C1 (counterexample): on a handle on which every statement fails, `main`
issues all its statements and ends exactly as on a handle on which none fails. -/
theorem failing_run_ends_like_clean_run :
    statements (main (.ok (recording (fun _ => some "database is locked"))) []).2 = script
      ∧ (main (.ok (recording (fun _ => some "database is locked"))) []).1
          = (main (.ok (recording (fun _ => none))) []).1 := by
  decide

/-- C1 (amended): only the error of `gorm.Open` is surfaced, as a panic. Once
the handle is open, `main` returns normally on every handle and from every
state, whatever errors its operations report, and the statements it issues do
not depend on those errors. -/
theorem only_connect_error_surfaces :
    (∀ (σ : Type) (e : Error) (s : σ),
        (main (.error e : Except Error (DB σ)) s).1 = .panicked "failed to connect database")
      ∧ (∀ (σ : Type) (db : DB σ) (s : σ), (main (.ok db) s).1 = .returned)
      ∧ (∀ errs : Stmt → Option Error,
          statements (main (.ok (recording errs)) []).2 = script) := by
  refine ⟨fun _ _ _ => rfl, fun _ _ _ => rfl, fun errs => ?_⟩
  simp only [main, firstFour, Transaction, callback, recording]
  cases errs createJohn <;> rfl

/-- C3: the callback of step 18 returns exactly the error of its `Create`, hence
an error if and only if the create fails; `Transaction` then rolls back after a
failed create, passing that error on, and commits after a successful one. On the
table of users a create that fails leaves the rows as they were before the
transaction, and a create that succeeds leaves the new user in the table. -/
theorem transaction_follows_create :
    (∀ (σ : Type) (tx : DB σ) (s : σ),
        callback tx s = ((tx.exec createJohn s).1, (tx.exec createJohn s).2.Error))
      ∧ (∀ (σ : Type) (db : DB σ) (s : σ),
          Transaction db callback s =
            match (db.exec createJohn (db.Begin s)).2.Error with
            | some e => (db.Rollback (db.exec createJohn (db.Begin s)).1, some e)
            | none => (db.Commit (db.exec createJohn (db.Begin s)).1, none))
      ∧ (∀ (destKey : Bool) (rest : Stmt → Table → Table × Option Error) (rows : Table),
          Transaction (sqlite destKey rest) callback ⟨rows, none⟩ =
            if rows.any (fun r => r.Email == "john@example.com") then
              (⟨rows, none⟩, some "UNIQUE constraint failed: users.email")
            else
              (⟨rows ++ [john rows], none⟩, none)) := by
  have hcb : ∀ (σ : Type) (tx : DB σ) (s : σ),
      callback tx s = ((tx.exec createJohn s).1, (tx.exec createJohn s).2.Error) := by
    intro σ tx s
    simp only [callback]
    cases (tx.exec createJohn s).2.Error <;> rfl
  refine ⟨hcb, ?_, ?_⟩
  · intro σ db s
    simp only [Transaction, hcb]
  · intro destKey rest rows
    simp only [Transaction, hcb]
    by_cases h : rows.any (fun r => r.Email == "john@example.com") = true
    · simp only [sqlite, createJohn, Create, h, if_true]
      rfl
    · simp only [sqlite, createJohn, Create, h, if_false, john]
      rfl

/-- C9: in every table that holds a user with primary key 1 (the key being
unique), the variable `user` holds that user after step 4, whatever step 1 loaded
into it before, and under both readings of a destination that is not empty. -/
theorem step_four_loads_user_one (destKey : Bool)
    (rest : Stmt → Table → Table × Option Error) (st : Sqlite) (u : User)
    (hu : u ∈ st.rows) (hid : u.ID = 1) (huniq : ∀ v ∈ st.rows, v.ID = 1 → v = u) :
    (firstFour (sqlite destKey rest) st).2 = u := by
  -- step 1 loads the row of least key
  have hall : st.rows.filter (fun v => destAllows destKey {} v) = st.rows := by
    apply List.filter_eq_self.mpr
    intro v _
    simp [destAllows]
  obtain ⟨m, hm⟩ := leastKey_of_mem hu
  have hmle : m.ID ≤ 1 := hid ▸ leastKey_le hm u hu
  -- step 4 then finds the row of key 1
  have hin : u ∈ st.rows.filter
      (fun v => (v.ID : Int) == 1 && destAllows destKey m v) := by
    apply List.mem_filter.mpr
    refine ⟨hu, ?_⟩
    have hm01 : m.ID = 0 ∨ m.ID = 1 := by omega
    rcases hm01 with h0 | h1
    · simp [destAllows, hid, h0]
    · simp [destAllows, hid, h1]
  obtain ⟨w, hw⟩ := leastKey_of_mem hin
  have hwu : w = u := by
    have hwmem := List.mem_filter.mp (leastKey_mem hw)
    apply huniq w hwmem.1
    have h1 := hwmem.2
    simp only [Bool.and_eq_true, beq_iff_eq] at h1
    exact_mod_cast h1.1
  simp only [firstFour, sqlite, List.isEmpty_nil, if_true, First, firstOf, hall, hm,
    Option.getD_some, hw, hwu]

/-- C9 (witness): a table in which the row of least key has key 0, so that step 1
loads a user whose key is not 1. -/
theorem step_four_loads_user_one_witness :
    (firstFour (sqlite true (fun _ rows => (rows, none)))
        ⟨[{ ID := 2, Name := "Bo" }, { ID := 0, Name := "Zed" }, { ID := 1, Name := "Ann" }], none⟩).2
      = { ID := 1, Name := "Ann" } :=
  step_four_loads_user_one true (fun _ rows => (rows, none))
    ⟨[{ ID := 2, Name := "Bo" }, { ID := 0, Name := "Zed" }, { ID := 1, Name := "Ann" }], none⟩
    { ID := 1, Name := "Ann" } (by decide) (by decide) (by decide)

/-- The step-4 query on a destination that holds a record of another non-zero
key finds nothing when the destination key counts as a condition. Steps 1 to 4
never reach this case: step 1 loads the row of least key. -/
theorem first_keeps_destination_key :
    First true [{ ID := 1, Name := "Ann" }, { ID := 2, Name := "Bo" }]
        { ID := 2, Name := "Bo" } [.int 1]
      = { Error := some "record not found" } := by
  decide

/-- C4: every parameterised condition of the script has as many `?` placeholders
as bound arguments, and paired from left to right every argument is one for the
column its placeholder is compared with; the conditions are those of steps 3, 9,
10, 11, 14, 15, 16, 17 and 20, listed with their pairs. -/
theorem placeholders_match_arguments (q : Stmt) (hq : q ∈ script) (c : Cond)
    (hc : c ∈ conds q) :
    placeholders c.text = c.args.length
      ∧ (bindings c).length = c.args.length
      ∧ (∀ b ∈ bindings c, fits b = true)
      ∧ q.step ∈ [3, 9, 10, 11, 14, 15, 16, 17, 20]
      ∧ bindingsByStep =
        [ (3, "name = ?", [(some "name", .lit (.str "John"))]),
          (9, "name LIKE ?", [(some "name", .lit (.str "J%"))]),
          (9, "is_active = ?", [(some "is_active", .lit (.bool true))]),
          (10, "is_active = ? OR is_admin = ?",
            [(some "is_active", .lit (.bool true)), (some "is_admin", .lit (.bool true))]),
          (11, "id = ?", [(some "id", .lit (.int 1))]),
          (14, "is_admin = ?", [(some "is_admin", .lit (.bool true))]),
          (14, "id IN (?)", [(some "id", .sub subquery)]),
          (15, "profiles.age >= ?", [(some "profiles.age", .lit (.int 18))]),
          (16, "user_count > ?", [(some "user_count", .lit (.int 5))]),
          (17, "SELECT * FROM users WHERE age > ?", [(some "age", .lit (.int 18))]),
          (20, "name IN ?", [(some "name", .lit (.strs ["John", "Jane"]))]),
          (20, "email LIKE ?", [(some "email", .lit (.str "%example%"))]) ] := by
  have h : ∀ q ∈ script, ∀ c ∈ conds q,
      placeholders c.text = c.args.length
        ∧ (bindings c).length = c.args.length
        ∧ (∀ b ∈ bindings c, fits b = true)
        ∧ q.step ∈ [3, 9, 10, 11, 14, 15, 16, 17, 20] := by
    decide
  obtain ⟨h1, h2, h3, h4⟩ := h q hq c hc
  exact ⟨h1, h2, h3, h4, by decide⟩

/-- C4 (witness): the condition of step 10, with two placeholders. -/
theorem placeholders_match_arguments_witness :
    placeholders "is_active = ? OR is_admin = ?" = 2
      ∧ (∀ b ∈ bindings ⟨"is_active = ? OR is_admin = ?", [.lit (.bool true), .lit (.bool true)]⟩,
          fits b = true) :=
  have h := placeholders_match_arguments
    ⟨10, [.Where "is_active = ? OR is_admin = ?" [.lit (.bool true), .lit (.bool true)]],
      .Find .users⟩ (by decide)
    ⟨"is_active = ? OR is_admin = ?", [.lit (.bool true), .lit (.bool true)]⟩ (by decide)
  ⟨h.1, h.2.2.1⟩

/-- C5 (counterexample): step 13 selects and groups by `role`, which is not a
storage name of `User`; so not every column the script refers to is one. -/
theorem some_reference_is_not_a_user_column :
    (⟨13, [.Model, .Select "role, COUNT(*) as count", .Group "role"], .Scan userCounts⟩ : Stmt)
        ∈ script
      ∧ "role" ∈ stmtRefs
          ⟨13, [.Model, .Select "role, COUNT(*) as count", .Group "role"], .Scan userCounts⟩
      ∧ "role" ∉ userColumns
      ∧ ¬ (∀ q ∈ script, ∀ c ∈ stmtRefs q, c ∈ userColumns) := by
  decide

/-- C5 (amended): every column the script names is the storage name of a field
of `User`, five references apart: `role` in steps 13 and 16, `user_count` in step
16 and `profiles.user_id`, `profiles.age` in step 15. Each of the five is named
in its step and is not a storage name of `User`. -/
theorem references_are_user_columns_but_five (q : Stmt) (hq : q ∈ script)
    (c : String) (hc : c ∈ stmtRefs q) :
    (c ∈ userColumns
        ∨ (q.step, c) ∈ [(13, "role"), (15, "profiles.user_id"), (15, "profiles.age"),
            (16, "role"), (16, "user_count")])
      ∧ (∀ p ∈ [(13, "role"), (15, "profiles.user_id"), (15, "profiles.age"),
            (16, "role"), (16, "user_count")],
          p.2 ∉ userColumns ∧ ∃ r ∈ script, r.step = p.1 ∧ p.2 ∈ stmtRefs r) := by
  have h : ∀ q ∈ script, ∀ c ∈ stmtRefs q,
      c ∈ userColumns
        ∨ (q.step, c) ∈ [(13, "role"), (15, "profiles.user_id"), (15, "profiles.age"),
            (16, "role"), (16, "user_count")] := by
    decide
  exact ⟨h q hq c hc, by decide⟩

/-- C5 (witness): the join of step 15 names `users.id`, the column `id` of
`User`. -/
theorem references_are_user_columns_but_five_witness :
    "id" ∈ userColumns
      ∨ (15, "id") ∈ [(13, "role"), (15, "profiles.user_id"), (15, "profiles.age"),
          (16, "role"), (16, "user_count")] :=
  (references_are_user_columns_but_five
    ⟨15, [.Joins "JOIN profiles ON profiles.user_id = users.id",
      .Where "profiles.age >= ?" [.lit (.int 18)]], .Find .users⟩
    (by decide) "id" (by decide)).1

/-- C7 (counterexample): on a database whose table of users has the column
`role` beside those of `User`, the scan of step 17 selects seven columns into the
six fields of `User`. -/
theorem raw_scan_width_follows_table :
    rawScan ∈ script
      ∧ rawScan.fin = .Scan .users
      ∧ (projection withRole rawScan).map List.length = some 7
      ∧ Dest.width .users = 6 := by
  decide

/-- C7 (amended): on every schema, each `Scan` of the script other than that of
step 17 selects as many columns as one row of its destination takes (one
expression into the scalar of step 8, two columns into the two-field structs of
steps 13, 16 and 19); the scan of step 17 goes into users and selects the
columns of the table of users, whatever they are: six on the table made from
`User` alone, seven on the table with `role`. -/
theorem scan_widths_but_raw (schema : Schema) (q : Stmt) (hq : q ∈ script) (d : Dest)
    (hd : q.fin = .Scan d) :
    q.step ∈ [8, 13, 16, 17, 19]
      ∧ (q.step ≠ 17 → (projection schema q).map List.length = some d.width)
      ∧ (q.step = 17 → d = .users ∧ projection schema q = schema usersTable)
      ∧ scanShapes migrated =
        [(8, some 1, 1), (13, some 2, 2), (16, some 2, 2), (17, some 6, 6), (19, some 2, 2)]
      ∧ scanShapes withRole =
        [(8, some 1, 1), (13, some 2, 2), (16, some 2, 2), (17, some 7, 6), (19, some 2, 2)] := by
  have h : ∀ q ∈ script, scanCheck q = true := by decide
  have hq := h q hq
  unfold scanCheck at hq
  rw [hd] at hq
  simp only [Bool.and_eq_true] at hq
  obtain ⟨hstep, hrest⟩ := hq
  refine ⟨by simpa using hstep, ?_, ?_, by decide, by decide⟩
  · intro hne
    rw [if_neg hne] at hrest
    cases hsel : selectList q with
    | none => rw [hsel] at hrest; simp at hrest
    | some items =>
      rw [hsel] at hrest
      simp only [Bool.and_eq_true, beq_iff_eq] at hrest
      have hnamed : ∀ i ∈ items, i ≠ Item.star := by
        intro i hi
        have := List.all_eq_true.mp hrest.1 i hi
        simpa using this
      simp only [projection, hsel, Option.some_bind]
      rw [expand_length_of_named _ _ hnamed]
      exact congrArg some hrest.2
  · intro h17
    rw [if_pos h17] at hrest
    simp only [Bool.and_eq_true, beq_iff_eq] at hrest
    obtain ⟨⟨hdest, hsel⟩, htable⟩ := hrest
    refine ⟨hdest, ?_⟩
    simp only [projection, hsel, Option.some_bind, htable]
    exact expand_star _

/-- C7 (witness): the scan of step 17 selects the columns of the table of users. -/
theorem scan_widths_but_raw_witness :
    projection migrated rawScan = migrated usersTable :=
  ((scan_widths_but_raw migrated rawScan (by decide) .users rfl).2.2.1 rfl).2

/-- C8: the column references of the script, step by step; those that are not
storage names of `User` are `role` in steps 13 and 16, `user_count` in step 16 and
`profiles.user_id`, `profiles.age` in step 15, and no other. -/
theorem foreign_references_are_role_and_profiles :
    refsByStep =
        [ (0, []), (1, []), (2, []), (3, ["name"]), (4, []), (5, ["is_admin"]), (6, []),
          (7, ["name"]), (8, ["age"]), (9, ["name", "is_active"]),
          (10, ["is_active", "is_admin"]), (11, ["id", "email"]), (12, []),
          (13, ["role", "role"]), (14, ["id", "id", "is_admin"]),
          (15, ["profiles.user_id", "id", "profiles.age"]),
          (16, ["role", "role", "user_count"]), (17, ["age"]), (18, []),
          (19, ["name", "email"]), (20, ["name"]), (20, ["email"]) ]
      ∧ foreignRefs =
        [ (13, "role"), (13, "role"), (15, "profiles.user_id"), (15, "profiles.age"),
          (16, "role"), (16, "role"), (16, "user_count") ]
      ∧ (∀ q ∈ script, ∀ c ∈ stmtRefs q,
          c ∈ ["role", "user_count", "profiles.user_id", "profiles.age"]
            ∨ c ∈ ["id", "name", "email", "age", "is_admin", "is_active"]) := by
  decide

/-- C10: the selected names that no field of the destination struct takes, for
the scans of steps 13, 16 and 19: none in steps 13 and 19, and `user_count` in
step 16, whose destination has the fields `Role` and `Count`. -/
theorem step_sixteen_alias_has_no_field :
    scanUnmatched = [(13, []), (16, ["user_count"]), (19, [])] := by
  decide

end GoOrm
